import Mathlib

/-!
Verification of the resilient network/update/power core of the
btc-display-firmware repository, embedded shallowly from:
  src/src/main.cpp        (firmware revision 1.0.3, the current code)
  src/unnamed/part_002    (firmware revision 1.0.0, earlier variant with
                           the semantic version comparator)

Byte buffers are List Char, C machine integers are Int with explicit
two's-complement wrapping where overflow matters, and the while loop of
the chunked decoder is step-indexed by a fuel parameter (the C loop has
no a-priori bound; fuel exhaustion is reported in the Bool component of
the result, false meaning the loop was still running).
-/

set_option maxRecDepth 10000

/-! ## Character class helpers (C isspace, hex digits) -/

/-- C isspace over the chars that can occur in a byte buffer:
space, tab, newline, vertical tab, form feed, carriage return. -/
def isSpaceC (c : Char) : Bool :=
  c = ' ' || c = '\t' || c = '\n' || c = '\x0b' || c = '\x0c' || c = '\r'

/-- Value of a hexadecimal digit, none for non-digits. -/
def hexVal (c : Char) : Option Nat :=
  if '0' ≤ c ∧ c ≤ '9' then some (c.toNat - '0'.toNat)
  else if 'a' ≤ c ∧ c ≤ 'f' then some (c.toNat - 'a'.toNat + 10)
  else if 'A' ≤ c ∧ c ≤ 'F' then some (c.toNat - 'A'.toNat + 10)
  else none

def isHexDigitC (c : Char) : Bool := (hexVal c).isSome

/-- Arduino String::trim — drop isspace characters from both ends. -/
def trimWS (s : List Char) : List Char :=
  ((s.dropWhile isSpaceC).reverse.dropWhile isSpaceC).reverse

/-- Magnitude of a hex digit string. -/
def hexMag (ds : List Char) : Nat :=
  ds.foldl (fun a c => 16 * a + ((hexVal c).getD 0)) 0

/-- LONG_MAX on the 32-bit ESP32 target. -/
def LONG_MAX : Int := 2147483647

/-- LONG_MIN on the 32-bit ESP32 target. -/
def LONG_MIN : Int := -2147483648

/-- strtol saturation: the result is clamped to the long range. -/
def clampLong (sign : Int) (mag : Nat) : Int :=
  if sign * (mag : Int) > LONG_MAX then LONG_MAX
  else if sign * (mag : Int) < LONG_MIN then LONG_MIN
  else sign * (mag : Int)

/-- C strtol(s, &endPtr, 16) on a NUL-terminated copy of s: skips leading
whitespace, accepts an optional sign and an optional 0x/0X, then hex
digits.  Returns (value, consumed) where consumed is the offset of endPtr
from the start of s; consumed = 0 means no conversion was performed. -/
def strtolHex (s : List Char) : Int × Nat :=
  let wsN := (s.takeWhile isSpaceC).length
  let r1 := s.drop wsN
  let sign : Int := match r1 with | '-' :: _ => -1 | _ => 1
  let signN : Nat := match r1 with | '-' :: _ => 1 | '+' :: _ => 1 | _ => 0
  let r2 := r1.drop signN
  match r2 with
  | '0' :: 'x' :: rest =>
      if (rest.takeWhile isHexDigitC).isEmpty then (0, wsN + signN + 1)
      else (clampLong sign (hexMag (rest.takeWhile isHexDigitC)),
            wsN + signN + 2 + (rest.takeWhile isHexDigitC).length)
  | '0' :: 'X' :: rest =>
      if (rest.takeWhile isHexDigitC).isEmpty then (0, wsN + signN + 1)
      else (clampLong sign (hexMag (rest.takeWhile isHexDigitC)),
            wsN + signN + 2 + (rest.takeWhile isHexDigitC).length)
  | _ =>
      if (r2.takeWhile isHexDigitC).isEmpty then (0, 0)
      else (clampLong sign (hexMag (r2.takeWhile isHexDigitC)),
            wsN + signN + (r2.takeWhile isHexDigitC).length)

/-! ## Arduino String primitives used by stripChunkedEncoding -/

/-- Auxiliary scan for indexOf: first index i ≥ start of c in the list
indexed from start. -/
def findChAux : List Char → Char → Nat → Option Nat
  | [], _, _ => none
  | x :: xs, c, i => if x = c then some i else findChAux xs c (i + 1)

/-- Arduino String::indexOf(c, from): absolute index of the first
occurrence of c at or after position from, none when absent. -/
def indexOfFrom (l : List Char) (c : Char) (start : Nat) : Option Nat :=
  findChAux (l.drop start) c start

/-- Arduino String::substring(left, right): swaps the bounds when
left > right, returns the empty string when the lower bound is past the
end, and clamps the upper bound to the length. -/
def substringA (l : List Char) (a b : Nat) : List Char :=
  let lo := if a > b then b else a
  let hi := if a > b then a else b
  if lo ≥ l.length then [] else (l.drop lo).take (hi - lo)

/-- One optional character skip: if raw[pos] exists and equals c, advance
past it (the \r and \n skips after a chunk body in the source). -/
def skipChar (raw : List Char) (pos : Nat) (c : Char) : Nat :=
  if pos < raw.length then (if raw.getD pos ' ' = c then pos + 1 else pos) else pos

/-! ## Framing Decoder — stripChunkedEncoding, src/src/main.cpp lines 178-225 -/

/-- The while loop of stripChunkedEncoding (main.cpp lines 200-222),
step-indexed by fuel.  The Bool result is true when the loop exited by
one of its break conditions and false when fuel ran out with the loop
still running.  chunkSize is a C long read by strtol; the comparison
pos + chunkSize <= raw.length() is performed after the usual arithmetic
conversions at 32 bits, so a negative sum converts to a huge unsigned
value and fails the test — modelled by the 0 ≤ s conjunct (buffer
lengths on the device are far below 2^31). -/
def chunkLoop : Nat → List Char → Nat → List Char → List Char × Bool
  | 0, _, _, acc => (acc, false)
  | Nat.succ fuel, raw, pos, acc =>
    if pos < raw.length then
      match indexOfFrom raw '\n' pos with
      | none => (acc, true)
      | some lineEnd =>
        let c := (strtolHex (trimWS (substringA raw pos lineEnd))).1
        if c = 0 then (acc, true)
        else
          let s : Int := ((lineEnd + 1 : Nat) : Int) + c
          if 0 ≤ s ∧ s ≤ (raw.length : Int) then
            chunkLoop fuel raw
              (skipChar raw (skipChar raw s.toNat '\r') '\n')
              (acc ++ substringA raw (lineEnd + 1) s.toNat)
          else (acc, true)
    else (acc, true)

/-- Whether the trailing characters after the parsed hex digits are
acceptable for chunk detection: end-of-string, carriage return or space
(main.cpp line 191, the *endPtr test). -/
def endOkAfterHex (rest : List Char) : Bool :=
  match rest with
  | [] => true
  | c :: _ => c = '\r' || c = ' '

/-- stripChunkedEncoding (main.cpp lines 178-225).  Empty input yields
empty output; input without a newline, or whose first (trimmed) line does
not read as a hex chunk size, is returned verbatim; otherwise the chunk
loop runs.  The Bool result is false when the loop was still running when
fuel ran out. -/
def stripChunkedEncoding (fuel : Nat) (raw : List Char) : List Char × Bool :=
  if raw.length = 0 then ([], true)
  else
    match indexOfFrom raw '\n' 0 with
    | none => (raw, true)
    | some firstLineEnd =>
      let firstLine := trimWS (substringA raw 0 firstLineEnd)
      let r := strtolHex firstLine
      if r.2 = 0 || !(endOkAfterHex (firstLine.drop r.2)) then (raw, true)
      else chunkLoop fuel raw 0 []

/-! ## Substring containment — Arduino String::indexOf(substring) != -1 -/

/-- Whether pat occurs at the head of the list. -/
def leadsWith : List Char → List Char → Bool
  | _, [] => true
  | [], _ :: _ => false
  | h :: t, p :: ps => h = p && leadsWith t ps

/-- Whether pat occurs anywhere in hay (indexOf(pat) != -1). -/
def occursIn : List Char → List Char → Bool
  | [], pat => pat.isEmpty
  | h :: t, pat => leadsWith (h :: t) pat || occursIn t pat

/-- Whether s ends with suf (Arduino String::endsWith). -/
def endsWithL (s suf : List Char) : Bool :=
  leadsWith s.reverse suf.reverse

/-! ## Resilient Fetch Client — fetchCurrentPrice and fetchWeekPrices,
src/src/main.cpp lines 228-312 and 314-402.

The transport and JSON collaborators are external per spec section 1 and
section 6; they are supplied through an environment record.  raw is the
body read after discarding the header lines; the JSON field is the
collaborator composite deserializeJson + field lookup applied to the
decoded payload, where none models DeserializationError, some none
models a missing expected field and some (some v) the extracted value
(numeric values are abstracted to Int — no arithmetic is done on them).
The fetch result is none when the chunked decoder was still looping when
its fuel ran out (the device would hang there); otherwise
some (success, new failure state, I/O actions performed, out variable). -/

/-- Rate limiting state: rateLimitBackoffUntil and consecutiveApiFailures,
main.cpp lines 98-100. -/
structure FailureState where
  rateLimitBackoffUntil : Nat
  consecutiveApiFailures : Int
deriving DecidableEq

/-- Transport actions a fetch can perform, in order. -/
inductive IOAct where
  | connect
  | send
  | read
deriving DecidableEq

/-- Environment of one price fetch: transport outcomes and the JSON
collaborator for the bitcoin.usd lookup. -/
structure PriceEnv where
  connectOk : Bool
  firstByteInTime : Bool
  raw : List Char
  jsonBitcoinUsd : List Char → Option (Option Int)

/-- Environment of one chart fetch: transport outcomes and the JSON
collaborator for the prices array extraction (already projected to the
price coordinates of the points with at least two entries). -/
structure ChartEnv where
  connectOk : Bool
  firstByteInTime : Bool
  raw : List Char
  jsonPricesField : List Char → Option (Option (List Int))

def RATE_LIMIT_COOLDOWN_MS : Nat := 60000

/-- The rate-limit body scan of main.cpp lines 287 and 371:
indexOf("rate limit") != -1 || indexOf("429") != -1. -/
def rateLimitMarker (payload : List Char) : Bool :=
  occursIn payload ("rate limit".toList) || occursIn payload ("429".toList)

/-- fetchCurrentPrice, main.cpp lines 228-312. -/
def fetchCurrentPrice (fuel now : Nat) (st : FailureState) (env : PriceEnv)
    (out : Int) : Option (Bool × FailureState × List IOAct × Int) :=
  if now < st.rateLimitBackoffUntil then
    some (false, st, [], out)
  else if !env.connectOk then
    some (false, { st with consecutiveApiFailures := st.consecutiveApiFailures + 1 },
          [.connect], out)
  else if !env.firstByteInTime then
    some (false, { st with consecutiveApiFailures := st.consecutiveApiFailures + 1 },
          [.connect, .send], out)
  else if !(stripChunkedEncoding fuel env.raw).2 then none
  else if rateLimitMarker (stripChunkedEncoding fuel env.raw).1 then
    some (false, { rateLimitBackoffUntil := now + RATE_LIMIT_COOLDOWN_MS,
                   consecutiveApiFailures := st.consecutiveApiFailures + 1 },
          [.connect, .send, .read], out)
  else
    match env.jsonBitcoinUsd (stripChunkedEncoding fuel env.raw).1 with
    | none =>
      some (false, { st with consecutiveApiFailures := st.consecutiveApiFailures + 1 },
            [.connect, .send, .read], out)
    | some none =>
      some (false, { st with consecutiveApiFailures := st.consecutiveApiFailures + 1 },
            [.connect, .send, .read], out)
    | some (some v) =>
      some (true, { st with consecutiveApiFailures := 0 },
            [.connect, .send, .read], v)

/-- fetchWeekPrices, main.cpp lines 314-402.  Unlike fetchCurrentPrice it
never touches consecutiveApiFailures, and on the prices-present path it
overwrites out with the extracted points and succeeds iff they are
non-empty. -/
def fetchWeekPrices (fuel now : Nat) (st : FailureState) (env : ChartEnv)
    (out : List Int) : Option (Bool × FailureState × List IOAct × List Int) :=
  if now < st.rateLimitBackoffUntil then
    some (false, st, [], out)
  else if !env.connectOk then
    some (false, st, [.connect], out)
  else if !env.firstByteInTime then
    some (false, st, [.connect, .send], out)
  else if !(stripChunkedEncoding fuel env.raw).2 then none
  else if rateLimitMarker (stripChunkedEncoding fuel env.raw).1 then
    some (false, { st with rateLimitBackoffUntil := now + RATE_LIMIT_COOLDOWN_MS },
          [.connect, .send, .read], out)
  else
    match env.jsonPricesField (stripChunkedEncoding fuel env.raw).1 with
    | none => some (false, st, [.connect, .send, .read], out)
    | some none => some (false, st, [.connect, .send, .read], out)
    | some (some pts) => some (!pts.isEmpty, st, [.connect, .send, .read], pts)

/-! ## Backoff Controller — calculateBackoff, src/src/main.cpp lines 166-175 -/

def INITIAL_BACKOFF_MS : Int := 5000
def MAX_BACKOFF_MS : Int := 60000

/-- Two's-complement wrap-around of 32-bit signed int arithmetic (the
ESP32 gcc target realizes signed overflow as wrap-around). -/
def wrap32 (x : Int) : Int := (x + 2147483648) % 4294967296 - 2147483648

/-- C integer division, truncating toward zero. -/
def tdivC (a b : Int) : Int :=
  Int.sign a * Int.sign b * ((a.natAbs / b.natAbs : Nat) : Int)

/-- random(howsmall, howbig) of the ESP32 Arduino core: howsmall when
howsmall >= howbig, otherwise howsmall plus a draw from [0, diff).  The
draw is supplied as an oracle. -/
def esp32Random (draw : Int → Int) (lo hi : Int) : Int :=
  if lo ≥ hi then lo else lo + draw (hi - lo)

/-- calculateBackoff, main.cpp lines 166-175.  1 << (attempt - 1) and the
multiplication by INITIAL_BACKOFF_MS are 32-bit int operations; the
wrap32 applications make the target's wrap-around explicit (meaningful
for 1 ≤ attempt ≤ 32 where the shift itself is defined). -/
def calculateBackoff (draw : Int → Int) (attempt : Int) : Int :=
  if attempt ≤ 0 then 0
  else
    let shifted := wrap32 (2 ^ (attempt - 1).toNat)
    let b0 := wrap32 (INITIAL_BACKOFF_MS * shifted)
    let b := if b0 > MAX_BACKOFF_MS then MAX_BACKOFF_MS else b0
    let jitter := esp32Random draw (tdivC (wrap32 (-b)) 5) (tdivC b 5)
    wrap32 (b + jitter)

/-! ## Version Comparator — compareVersions, src/unnamed/part_002
lines 356-371 -/

/-- Arduino String::replace("v", "") removes every occurrence of the
single character v. -/
def removeAllV (s : List Char) : List Char := s.filter (fun c => !(c = 'v'))

/-- Magnitude of a decimal digit string. -/
def decMag (ds : List Char) : Nat :=
  ds.foldl (fun a c => 10 * a + (c.toNat - '0'.toNat)) 0

/-- One %d conversion of sscanf: skip whitespace, optional sign, decimal
digits; none when no digit is found (the conversion fails and scanning
stops).  Returns the value and the unconsumed remainder. -/
def scanDec (s : List Char) : Option (Int × List Char) :=
  let r1 := s.dropWhile isSpaceC
  let sign : Int := match r1 with | '-' :: _ => -1 | _ => 1
  let signN : Nat := match r1 with | '-' :: _ => 1 | '+' :: _ => 1 | _ => 0
  let r2 := r1.drop signN
  let ds := r2.takeWhile (fun c => decide ('0' ≤ c ∧ c ≤ '9'))
  if ds.isEmpty then none
  else some (sign * (decMag ds : Int), r2.drop ds.length)

/-- sscanf(s, "%d.%d.%d", &a, &b, &c) with a, b, c initialized to zero:
each literal dot must match the very next character; components not
reached keep their zero initialization. -/
def sscanf3 (s : List Char) : Int × Int × Int :=
  match scanDec s with
  | none => (0, 0, 0)
  | some (a, r) =>
    match r with
    | '.' :: r2 =>
      match scanDec r2 with
      | none => (a, 0, 0)
      | some (b, r3) =>
        match r3 with
        | '.' :: r4 =>
          match scanDec r4 with
          | none => (a, b, 0)
          | some (c, _) => (a, b, c)
        | _ => (a, b, 0)
    | _ => (a, 0, 0)

/-- compareVersions, part_002 lines 356-371: returns 1, -1 or 0; there is
no error outcome, components sscanf cannot parse stay zero. -/
def compareVersions (v1 v2 : List Char) : Int :=
  let w1 := removeAllV v1
  let w2 := removeAllV v2
  let p := sscanf3 w1
  let q := sscanf3 w2
  if p.1 ≠ q.1 then (if p.1 > q.1 then 1 else -1)
  else if p.2.1 ≠ q.2.1 then (if p.2.1 > q.2.1 then 1 else -1)
  else if p.2.2 ≠ q.2.2 then (if p.2.2 > q.2.2 then 1 else -1)
  else 0

/-! ## Update Orchestrator decisions — checkForFirmwareUpdate in
src/src/main.cpp lines 405-490 (version 1.0.3) and src/unnamed/part_002
lines 377-486 (version 1.0.0).  The embedded decision functions take the
release tag and the asset list (name, browser_download_url) extracted
from the metadata JSON and return some url exactly when the source goes
on to call performFirmwareUpdate(url) — the Firmware Writer. -/

def fwVersion_v103 : List Char := "1.0.3".toList
def fwVersion_v100 : List Char := "1.0.0".toList

/-- The v-stripping of main.cpp lines 460-462: drop one leading v. -/
def stripTagV (tag : List Char) : List Char :=
  match tag with
  | 'v' :: rest => rest
  | _ => tag

/-- Asset scan of main.cpp lines 472-482: first asset named exactly
firmware.bin. -/
def findFirmwareBin : List (List Char × List Char) → Option (List Char)
  | [] => none
  | (name, url) :: rest =>
    if name = "firmware.bin".toList then some url else findFirmwareBin rest

/-- Asset scan of part_002 lines 469-476: first asset whose name ends in
.bin. -/
def findDotBin : List (List Char × List Char) → Option (List Char)
  | [] => none
  | (name, url) :: rest =>
    if endsWithL name (".bin".toList) then some url else findDotBin rest

/-- Update decision of main.cpp lines 457-489: the writer is invoked for
any non-empty stripped tag that differs from the embedded version string
(plain string inequality, no ordering), provided a firmware.bin asset
exists. -/
def checkForFirmwareUpdate_v103 (tag : List Char)
    (assets : List (List Char × List Char)) : Option (List Char) :=
  let latest := stripTagV tag
  if latest ≠ fwVersion_v103 ∧ latest ≠ [] then findFirmwareBin assets
  else none

/-- Update decision of part_002 lines 447-486: the writer is invoked only
when compareVersions(FIRMWARE_VERSION, tag) < 0 and a .bin asset exists. -/
def checkForFirmwareUpdate_v100 (tag : List Char)
    (assets : List (List Char × List Char)) : Option (List Char) :=
  if compareVersions fwVersion_v100 tag ≥ 0 then none
  else findDotBin assets

/-! ## Power Arbiter — checkBattery, src/src/main.cpp lines 810-822.
The float computation (adc / 4095.0) * 3.3 * 2.0 is modelled exactly over
the rationals; at the inputs used in the theorems below the comparison
against the thresholds is unaffected by float rounding (the witness input
is 0, which floats represent exactly). -/

def BATTERY_LOW_VOLTAGE : ℚ := 33 / 10

/-- Battery voltage reconstructed from the 12-bit ADC value,
main.cpp line 815. -/
def batteryVoltage (adc : ℕ) : ℚ := ((adc : ℚ) / 4095) * (33 / 10) * 2

/-- checkBattery, main.cpp lines 810-822: batteryLow is recomputed from
the current sample alone; prevLow is the previous value of the global
batteryLow flag, which the assignment discards. -/
def checkBattery (prevLow : Bool) (adc : ℕ) : Bool :=
  decide (batteryVoltage adc < BATTERY_LOW_VOLTAGE ∧ batteryVoltage adc > 1 / 2)

/-! ## Shared helper lemmas -/

lemma head_cons_mem {a : Char} {l : List Char} (t : List Char)
    (h : l = a :: t) : a ∈ l := by
  subst h; exact List.mem_cons_self a t

/-- compareVersions only ever returns 1, -1 or 0. -/
lemma compareVersions_mem (a b : List Char) :
    compareVersions a b = -1 ∨ compareVersions a b = 0 ∨
    compareVersions a b = 1 := by
  simp only [compareVersions]
  split
  · split
    · right; right; rfl
    · left; rfl
  · split
    · split
      · right; right; rfl
      · left; rfl
    · split
      · split
        · right; right; rfl
        · left; rfl
      · right; left; rfl

/-! ## Claim C4 — backoff envelope -/

/-- Claim C4: the claim is right about the intent (0 at attempt 0, then
the clamped exponential with ±20 percent jitter, non-decreasing up to the
cap) but the code breaks it at attempt 20, which is reachable because
consecutiveApiFailures grows without bound: 5000 * (1 << 19) =
2621440000 overflows 32-bit int to -1673527296, the clamp at
MAX_BACKOFF_MS is skipped (a negative value is not greater than 60000),
random(howsmall, howbig) is called with howsmall > howbig and returns
howsmall, and calculateBackoff returns -1338821837 — far outside the
claimed [48000, 72000] envelope and below the attempt-19 value,
regardless of the random draw. -/
theorem c4_backoff_overflow :
    calculateBackoff (fun _ => 0) 20 = -1338821837 ∧
    calculateBackoff (fun _ => 123456) 20 = -1338821837 ∧
    calculateBackoff (fun _ => 0) 20 < 0 := by
  refine ⟨by decide, by decide, by decide⟩

/-! ## Claim C7 — the comparator has no ParseError outcome -/

/-- Claim C7 counterexample: compare("abc", "1.0.0") is not a parse
error — compareVersions returns the int -1 (the Less outcome of part_002,
line 451 treats negative as remote-newer), identical to
compare("0.0.0", "1.0.0"): the non-numeric first component is silently
parsed as 0 and classified as an older version. -/
theorem c7_parse_error_counterexample :
    compareVersions ("abc".toList) ("1.0.0".toList) = -1 ∧
    compareVersions ("0.0.0".toList) ("1.0.0".toList) = -1 := by
  exact ⟨by decide, by decide⟩

/-- Claim C7 amended: compareVersions is total over the three int results
1, -1 and 0 and has no error outcome; a version string whose first
component is non-numeric is treated exactly like 0.0.0, so
compare("abc", "1.0.0") is Less, not ParseError. -/
theorem c7_compare_total :
    (∀ a b, compareVersions a b = -1 ∨ compareVersions a b = 0 ∨
      compareVersions a b = 1) ∧
    compareVersions ("abc".toList) ("1.0.0".toList) =
      compareVersions ("0.0.0".toList) ("1.0.0".toList) := by
  exact ⟨compareVersions_mem, by decide⟩

/-! ## Claim C8 — battery classification on implausible samples -/

/-- Claim C8 counterexample: at ADC sample 0 (0 V, a disconnected
sensor) with the previous classification Low (batteryLow = true), the
code does not retain the previous state: checkBattery reassigns
batteryLow unconditionally and returns false. -/
theorem c8_battery_counterexample :
    batteryVoltage 0 = 0 ∧ checkBattery true 0 = false := by
  have h : batteryVoltage 0 = 0 := by norm_num [batteryVoltage]
  refine ⟨h, ?_⟩
  simp only [checkBattery, h, decide_eq_false_iff_not, not_and, not_lt]
  intro _
  norm_num

/-- Claim C8 amended: an implausibly low voltage sample (at most 0.5 V)
is not classified as low battery, but the previous classification is not
retained — checkBattery recomputes the flag from the current sample
alone, ignoring the previous state entirely (and there is no
implausibly-high cutoff; any reading of 3.3 V or more also yields
false). -/
theorem c8_battery_recompute :
    (∀ p q adc, checkBattery p adc = checkBattery q adc) ∧
    (∀ p adc, batteryVoltage adc ≤ 1 / 2 → checkBattery p adc = false) := by
  constructor
  · intro p q adc; rfl
  · intro p adc h
    simp only [checkBattery, decide_eq_false_iff_not, not_and, not_lt]
    intro _
    exact le_of_not_lt (fun hc => absurd h (not_le_of_lt hc))

/-- Claim C8 witness: the amended theorem applied at the disconnected
sample 0 with previous classification true. -/
theorem c8_battery_recompute_witness :
    batteryVoltage 0 ≤ 1 / 2 ∧ checkBattery true 0 = false := by
  refine ⟨by norm_num [batteryVoltage], c8_battery_recompute.2 true 0 (by norm_num [batteryVoltage])⟩

/-! ## Claim C1 — version gating of the Update Orchestrator -/

/-- Claim C1 counterexample: in the current orchestrator (main.cpp), a
remote tag v0.9.0 that is strictly older than the embedded version 1.0.3
(the comparator of part_002 orders 0.9.0 below 1.0.3) still invokes the
Firmware Writer on the firmware.bin asset: the code only tests string
inequality of the stripped tag against FIRMWARE_VERSION. -/
theorem c1_version_gate_counterexample :
    checkForFirmwareUpdate_v103 ("v0.9.0".toList)
      [("firmware.bin".toList, "U".toList)] = some ("U".toList) ∧
    compareVersions ("0.9.0".toList) (fwVersion_v103) = -1 := by
  exact ⟨by decide, by decide⟩

/-- Claim C1 amended: the claimed gating holds for the version 1.0.0
orchestrator of part_002 — the Firmware Writer is invoked only when
compareVersions(local, remote) is -1, i.e. the remote version is strictly
greater under the comparator (an unparseable remote reads as 0.0.0 and is
therefore never greater than the embedded 1.0.0) — while the current
main.cpp orchestrator invokes the writer whenever the stripped remote tag
is non-empty and differs from the embedded version string, including for
strictly older or unparseable remote versions. -/
theorem c1_version_gate :
    (∀ tag assets url, checkForFirmwareUpdate_v100 tag assets = some url →
      compareVersions fwVersion_v100 tag = -1) ∧
    (∀ tag assets url, checkForFirmwareUpdate_v103 tag assets = some url →
      stripTagV tag ≠ fwVersion_v103 ∧ stripTagV tag ≠ []) := by
  constructor
  · intro tag assets url h
    unfold checkForFirmwareUpdate_v100 at h
    by_cases hc : compareVersions fwVersion_v100 tag ≥ 0
    · rw [if_pos hc] at h; exact absurd h (by simp)
    · rcases compareVersions_mem fwVersion_v100 tag with h1 | h1 | h1
      · exact h1
      · exact absurd (le_of_eq h1.symm) hc
      · exact absurd (h1 ▸ (by norm_num : (0:Int) ≤ 1)) hc
  · intro tag assets url h
    unfold checkForFirmwareUpdate_v103 at h
    by_cases hc : stripTagV tag ≠ fwVersion_v103 ∧ stripTagV tag ≠ []
    · exact hc
    · rw [if_neg hc] at h; exact absurd h (by simp)

/-- Claim C1 witness: the part_002 orchestrator invoked at remote tag
1.1.0 with a .bin asset — the writer is invoked and the comparator indeed
reports the remote strictly greater than 1.0.0. -/
theorem c1_version_gate_witness :
    checkForFirmwareUpdate_v100 ("1.1.0".toList)
      [("a.bin".toList, "u".toList)] = some ("u".toList) ∧
    compareVersions fwVersion_v100 ("1.1.0".toList) = -1 := by
  refine ⟨by decide, c1_version_gate.1 ("1.1.0".toList)
    [("a.bin".toList, "u".toList)] ("u".toList) (by decide)⟩

/-! ## Concrete fetch environments used in witnesses and counterexamples -/

/-- A transport that fails to connect. -/
def envPriceNoConn : PriceEnv :=
  { connectOk := false, firstByteInTime := true, raw := [],
    jsonBitcoinUsd := fun _ => none }

/-- A price response whose body does not parse as JSON. -/
def envPriceBadJson : PriceEnv :=
  { connectOk := true, firstByteInTime := true, raw := "junk".toList,
    jsonBitcoinUsd := fun _ => none }

/-- A price response whose body contains 429 inside the price digits and
whose JSON collaborator would extract a value if it were consulted. -/
def envPrice429 : PriceEnv :=
  { connectOk := true, firstByteInTime := true, raw := "usd 142900".toList,
    jsonBitcoinUsd := fun _ => some (some 142900) }

/-- A chart transport that fails to connect. -/
def envChartNoConn : ChartEnv :=
  { connectOk := false, firstByteInTime := true, raw := [],
    jsonPricesField := fun _ => none }

/-- A fully successful chart response with one point. -/
def envChartOk : ChartEnv :=
  { connectOk := true, firstByteInTime := true, raw := "pts".toList,
    jsonPricesField := fun _ => some (some [7]) }

/-- A chart response whose body contains 429. -/
def envChart429 : ChartEnv :=
  { connectOk := true, firstByteInTime := true, raw := "usd 142900".toList,
    jsonPricesField := fun _ => some (some [7]) }

/-! ## Claim C5 — the rate-limit window suppresses all I/O -/

/-- Claim C5: while now is before rateLimitBackoffUntil, both fetchers
return failure immediately, perform no transport action at all, and leave
the whole failure state — counter and timestamp — unchanged, as do they
leave the out variable. -/
theorem c5_backoff_no_io :
    ∀ (fuel now : Nat) (st : FailureState) (envP : PriceEnv) (outP : Int)
      (envC : ChartEnv) (outC : List Int),
      now < st.rateLimitBackoffUntil →
      fetchCurrentPrice fuel now st envP outP = some (false, st, [], outP) ∧
      fetchWeekPrices fuel now st envC outC = some (false, st, [], outC) := by
  intro fuel now st envP outP envC outC h
  constructor
  · unfold fetchCurrentPrice; rw [if_pos h]
  · unfold fetchWeekPrices; rw [if_pos h]

/-- Claim C5 witness: at now = 3 with the window open until 10, both
fetchers return immediately with nothing changed and no I/O. -/
theorem c5_backoff_no_io_witness :
    (3 : Nat) < (10 : Nat) ∧
    fetchCurrentPrice 1 3 ⟨10, 2⟩ envPriceBadJson 42 =
      some (false, ⟨10, 2⟩, [], 42) ∧
    fetchWeekPrices 1 3 ⟨10, 2⟩ envChartOk [5] =
      some (false, ⟨10, 2⟩, [], [5]) := by
  exact ⟨by decide, c5_backoff_no_io 1 3 ⟨10, 2⟩ envPriceBadJson 42
    envChartOk [5] (by decide)⟩

/-! ## Claim C6 — failure counter discipline -/

/-- Claim C6 counterexample: the chart endpoint does not follow the
claimed counter discipline.  A connection failure leaves
consecutiveApiFailures at 0 (the claim requires an increment to 1), and a
fully successful chart fetch leaves a prior count of 3 in place (the
claim requires a reset to 0). -/
theorem c6_chart_counter_counterexample :
    fetchWeekPrices 1 0 ⟨0, 0⟩ envChartNoConn [] =
      some (false, ⟨0, 0⟩, [IOAct.connect], []) ∧
    fetchWeekPrices 1 0 ⟨0, 3⟩ envChartOk [] =
      some (true, ⟨0, 3⟩, [IOAct.connect, IOAct.send, IOAct.read], [7]) := by
  exact ⟨by decide, by decide⟩

/-- Claim C6 amended: the claimed discipline holds for the price endpoint
only — once past the rate-limit window, every failing outcome of
fetchCurrentPrice (connection failure, timeout, rate-limit marker, JSON
parse error, missing field) increments consecutiveApiFailures by exactly
one and every success resets it to zero — while fetchWeekPrices never
modifies the counter, neither on failure nor on success. -/
theorem c6_counter_discipline :
    (∀ (fuel now : Nat) (st : FailureState) (env : PriceEnv) (out : Int)
       (ok : Bool) (st2 : FailureState) (tr : List IOAct) (o : Int),
       st.rateLimitBackoffUntil ≤ now →
       fetchCurrentPrice fuel now st env out = some (ok, st2, tr, o) →
       st2.consecutiveApiFailures =
         if ok then 0 else st.consecutiveApiFailures + 1) ∧
    (∀ (fuel now : Nat) (st : FailureState) (env : ChartEnv) (out : List Int)
       (ok : Bool) (st2 : FailureState) (tr : List IOAct) (o : List Int),
       fetchWeekPrices fuel now st env out = some (ok, st2, tr, o) →
       st2.consecutiveApiFailures = st.consecutiveApiFailures) := by
  constructor
  · intro fuel now st env out ok st2 tr o hnow h
    unfold fetchCurrentPrice at h
    rw [if_neg (Nat.not_lt.mpr hnow)] at h
    split at h
    · simp only [Option.some.injEq, Prod.mk.injEq] at h
      obtain ⟨hok, hst, -, -⟩ := h
      subst hok; subst hst; rfl
    · split at h
      · simp only [Option.some.injEq, Prod.mk.injEq] at h
        obtain ⟨hok, hst, -, -⟩ := h
        subst hok; subst hst; rfl
      · split at h
        · exact absurd h (by simp)
        · split at h
          · simp only [Option.some.injEq, Prod.mk.injEq] at h
            obtain ⟨hok, hst, -, -⟩ := h
            subst hok; subst hst; rfl
          · split at h
            · simp only [Option.some.injEq, Prod.mk.injEq] at h
              obtain ⟨hok, hst, -, -⟩ := h
              subst hok; subst hst; rfl
            · simp only [Option.some.injEq, Prod.mk.injEq] at h
              obtain ⟨hok, hst, -, -⟩ := h
              subst hok; subst hst; rfl
            · simp only [Option.some.injEq, Prod.mk.injEq] at h
              obtain ⟨hok, hst, -, -⟩ := h
              subst hok; subst hst; rfl
  · intro fuel now st env out ok st2 tr o h
    unfold fetchWeekPrices at h
    split at h
    · simp only [Option.some.injEq, Prod.mk.injEq] at h
      obtain ⟨-, hst, -, -⟩ := h; subst hst; rfl
    · split at h
      · simp only [Option.some.injEq, Prod.mk.injEq] at h
        obtain ⟨-, hst, -, -⟩ := h; subst hst; rfl
      · split at h
        · simp only [Option.some.injEq, Prod.mk.injEq] at h
          obtain ⟨-, hst, -, -⟩ := h; subst hst; rfl
        · split at h
          · exact absurd h (by simp)
          · split at h
            · simp only [Option.some.injEq, Prod.mk.injEq] at h
              obtain ⟨-, hst, -, -⟩ := h; subst hst; rfl
            · split at h
              · simp only [Option.some.injEq, Prod.mk.injEq] at h
                obtain ⟨-, hst, -, -⟩ := h; subst hst; rfl
              · simp only [Option.some.injEq, Prod.mk.injEq] at h
                obtain ⟨-, hst, -, -⟩ := h; subst hst; rfl
              · simp only [Option.some.injEq, Prod.mk.injEq] at h
                obtain ⟨-, hst, -, -⟩ := h; subst hst; rfl

/-- Claim C6 witness: the price-side discipline applied at a concrete
connection failure — with a prior count of 5 the returned state carries
count 6, matching the if-form of the conclusion. -/
theorem c6_counter_discipline_witness :
    (FailureState.rateLimitBackoffUntil ⟨0, 5⟩ ≤ 0) ∧
    fetchCurrentPrice 1 0 ⟨0, 5⟩ envPriceNoConn 0 =
      some (false, ⟨0, 6⟩, [IOAct.connect], 0) ∧
    (FailureState.consecutiveApiFailures ⟨0, 6⟩ =
      if false then 0 else FailureState.consecutiveApiFailures ⟨0, 5⟩ + 1) := by
  refine ⟨by decide, by decide, c6_counter_discipline.1 1 0 ⟨0, 5⟩
    envPriceNoConn 0 false ⟨0, 6⟩ [IOAct.connect] 0 (by decide) (by decide)⟩

/-! ## Claim C9 — the price out variable is preserved on failure -/

/-- Claim C9: whenever fetchCurrentPrice returns (its chunk decoding
terminated) and the outcome is failure — for any of its failure paths:
rate-limit window, connection failure, timeout, rate-limit marker, JSON
parse error or missing field — the caller-supplied price variable is
returned unchanged; it is overwritten only on the fully successful
path, so the last good price survives failed fetches. -/
theorem c9_price_preserved :
    ∀ (fuel now : Nat) (st : FailureState) (env : PriceEnv) (out : Int)
      (ok : Bool) (st2 : FailureState) (tr : List IOAct) (o : Int),
      fetchCurrentPrice fuel now st env out = some (ok, st2, tr, o) →
      ok = false → o = out := by
  intro fuel now st env out ok st2 tr o h hok
  subst hok
  unfold fetchCurrentPrice at h
  split at h
  · simp only [Option.some.injEq, Prod.mk.injEq] at h
    exact h.2.2.2.symm
  · split at h
    · simp only [Option.some.injEq, Prod.mk.injEq] at h
      exact h.2.2.2.symm
    · split at h
      · simp only [Option.some.injEq, Prod.mk.injEq] at h
        exact h.2.2.2.symm
      · split at h
        · exact absurd h (by simp)
        · split at h
          · simp only [Option.some.injEq, Prod.mk.injEq] at h
            exact h.2.2.2.symm
          · split at h
            · simp only [Option.some.injEq, Prod.mk.injEq] at h
              exact h.2.2.2.symm
            · simp only [Option.some.injEq, Prod.mk.injEq] at h
              exact h.2.2.2.symm
            · simp only [Option.some.injEq, Prod.mk.injEq] at h
              exact absurd h.1 (by simp)

/-- Claim C9 witness: a failed parse at a concrete input leaves the
previous price 42 in the out slot. -/
theorem c9_price_preserved_witness :
    fetchCurrentPrice 1 0 ⟨0, 0⟩ envPriceBadJson 42 =
      some (false, ⟨0, 1⟩, [IOAct.connect, IOAct.send, IOAct.read], 42) ∧
    (42 : Int) = 42 := by
  refine ⟨by decide, c9_price_preserved 1 0 ⟨0, 0⟩ envPriceBadJson 42
    false ⟨0, 1⟩ [IOAct.connect, IOAct.send, IOAct.read] 42 (by decide) rfl⟩

/-! ## Claim C10 — rate-limit detection is a plain substring scan -/

/-- Claim C10: on both endpoints, whenever the decoded payload contains
the substring rate limit or the substring 429 anywhere — digits of a
price value included — the fetch returns failure with
rateLimitBackoffUntil set to now + 60000 ms, and the JSON collaborator
is never consulted: the conclusion pins the entire result for every
jsonBitcoinUsd and jsonPricesField, so the structured parse cannot have
influenced it. -/
theorem c10_rate_limit_scan :
    ∀ (fuel now : Nat) (st : FailureState) (envP : PriceEnv) (outP : Int)
      (envC : ChartEnv) (outC : List Int),
      st.rateLimitBackoffUntil ≤ now →
      envP.connectOk = true → envP.firstByteInTime = true →
      (stripChunkedEncoding fuel envP.raw).2 = true →
      rateLimitMarker (stripChunkedEncoding fuel envP.raw).1 = true →
      envC.connectOk = true → envC.firstByteInTime = true →
      (stripChunkedEncoding fuel envC.raw).2 = true →
      rateLimitMarker (stripChunkedEncoding fuel envC.raw).1 = true →
      fetchCurrentPrice fuel now st envP outP =
        some (false, ⟨now + RATE_LIMIT_COOLDOWN_MS,
                      st.consecutiveApiFailures + 1⟩,
              [IOAct.connect, IOAct.send, IOAct.read], outP) ∧
      fetchWeekPrices fuel now st envC outC =
        some (false, { st with rateLimitBackoffUntil :=
                         now + RATE_LIMIT_COOLDOWN_MS },
              [IOAct.connect, IOAct.send, IOAct.read], outC) := by
  intro fuel now st envP outP envC outC hnow hp1 hp2 hp3 hp4 hc1 hc2 hc3 hc4
  constructor
  · unfold fetchCurrentPrice
    rw [if_neg (Nat.not_lt.mpr hnow)]
    rw [hp1, hp2, hp3, hp4]
    simp
  · unfold fetchWeekPrices
    rw [if_neg (Nat.not_lt.mpr hnow)]
    rw [hc1, hc2, hc3, hc4]
    simp

/-- Claim C10 witness: a payload reading usd 142900 — an ordinary price
whose digits contain 429 — trips the scan on both endpoints even though
the JSON collaborators of the two environments would have produced
values, and the cooldown lands at now + 60000. -/
theorem c10_rate_limit_scan_witness :
    (FailureState.rateLimitBackoffUntil ⟨0, 2⟩ ≤ 5) ∧
    fetchCurrentPrice 3 5 ⟨0, 2⟩ envPrice429 42 =
      some (false, ⟨60005, 3⟩, [IOAct.connect, IOAct.send, IOAct.read], 42) ∧
    fetchWeekPrices 3 5 ⟨0, 2⟩ envChart429 [] =
      some (false, ⟨60005, 2⟩, [IOAct.connect, IOAct.send, IOAct.read], []) := by
  refine ⟨by decide, c10_rate_limit_scan 3 5 ⟨0, 2⟩ envPrice429 42 envChart429 []
    (by decide) (by decide) (by decide) (by decide) (by decide)
    (by decide) (by decide) (by decide) (by decide)⟩

/-! ## Lemmas about indexOf and substring -/

lemma findChAux_some : ∀ (l : List Char) (c : Char) (i e : Nat),
    findChAux l c i = some e →
    i ≤ e ∧ e - i < l.length ∧
      l.take (e - i) = l.takeWhile (fun x => !(x = c)) := by
  intro l
  induction l with
  | nil => intro c i e h; exact absurd h (by simp [findChAux])
  | cons x xs ih =>
    intro c i e h
    by_cases hx : x = c
    · simp only [findChAux, if_pos hx] at h
      obtain rfl : i = e := by injection h
      refine ⟨le_refl _, by simp, ?_⟩
      simp [hx]
    · simp only [findChAux, if_neg hx] at h
      obtain ⟨h1, h2, h3⟩ := ih c (i + 1) e h
      have hlen : (x :: xs).length = xs.length + 1 := rfl
      refine ⟨by omega, by omega, ?_⟩
      have he : e - i = (e - (i + 1)) + 1 := by omega
      rw [he]
      simpa [List.takeWhile_cons, hx] using h3

lemma indexOfFrom_some_bounds (l : List Char) (c : Char) (start e : Nat)
    (h : indexOfFrom l c start = some e) : start ≤ e ∧ e < l.length := by
  obtain ⟨h1, h2, -⟩ := findChAux_some _ _ _ _ h
  have h3 : (l.drop start).length = l.length - start := List.length_drop start l
  omega

lemma indexOfFrom_zero_take (l : List Char) (c : Char) (e : Nat)
    (h : indexOfFrom l c 0 = some e) :
    l.take e = l.takeWhile (fun x => !(x = c)) := by
  unfold indexOfFrom at h
  rw [List.drop_zero] at h
  simpa using (findChAux_some _ _ _ _ h).2.2

lemma substringA_zero_take (l : List Char) (e : Nat) (h : l.length ≠ 0) :
    substringA l 0 e = l.take e := by
  simp only [substringA]
  rw [if_neg (by omega : ¬ 0 > e)]
  rw [if_neg (by omega : ¬ 0 > e)]
  rw [if_neg (by omega : ¬ 0 ≥ l.length)]
  simp

/-! ## Claim C3 — non-chunked input is returned verbatim -/

/-- The detection predicate of the claim, applied to the first line of
the buffer (everything before the first newline, the entire buffer when
there is none): after trimming, parsing the line as a hex integer
consumes zero characters, or the character at which parsing stopped is
neither end-of-string nor carriage return nor space. -/
def looksUnchunked (raw : List Char) : Bool :=
  let fl := trimWS (raw.takeWhile (fun c => !(c = '\n')))
  (strtolHex fl).2 = 0 || !(endOkAfterHex (fl.drop (strtolHex fl).2))

/-- Claim C3: every non-empty buffer whose first line fails hex chunk
detection — zero characters consumed, or a stop character other than
end-of-string, carriage return or space — is returned verbatim by the
decoder, whatever the fuel. -/
theorem c3_verbatim_nonchunked :
    ∀ (raw : List Char) (fuel : Nat), raw ≠ [] → looksUnchunked raw = true →
      stripChunkedEncoding fuel raw = (raw, true) := by
  intro raw fuel hne hlook
  have hlen : raw.length ≠ 0 := fun h => hne (List.length_eq_zero.mp h)
  unfold stripChunkedEncoding
  rw [if_neg hlen]
  cases hidx : indexOfFrom raw '\n' 0 with
  | none => rfl
  | some e =>
    have htake : substringA raw 0 e = raw.takeWhile (fun x => !(x = '\n')) := by
      rw [substringA_zero_take raw e hlen, indexOfFrom_zero_take raw '\n' e hidx]
    simp only [looksUnchunked] at hlook
    simp only [htake, hlook, if_true]

/-! ## Lemmas toward the output bound of the decoder -/

lemma mem_of_mem_dropWhile {c : Char} {p : Char → Bool} :
    ∀ {l : List Char}, c ∈ l.dropWhile p → c ∈ l := by
  intro l
  induction l with
  | nil => simp [List.dropWhile]
  | cons x xs ih =>
    simp only [List.dropWhile]
    split
    · intro h; exact List.mem_cons_of_mem _ (ih h)
    · exact id

lemma trimWS_subset {c : Char} {s : List Char} (h : c ∈ trimWS s) : c ∈ s := by
  simp only [trimWS, List.mem_reverse] at h
  exact mem_of_mem_dropWhile (List.mem_reverse.mp (mem_of_mem_dropWhile h))

lemma substringA_subset {c : Char} {l : List Char} {a b : Nat}
    (h : c ∈ substringA l a b) : c ∈ l := by
  simp only [substringA] at h
  split at h <;> split at h <;>
    first
      | exact absurd h (List.not_mem_nil c)
      | exact List.drop_subset _ _ (List.take_subset _ _ h)

lemma clampLong_one_nonneg (m : Nat) : 0 ≤ clampLong 1 m := by
  unfold clampLong
  split
  · norm_num [LONG_MAX]
  · split
    · exfalso
      have h1 := Int.natCast_nonneg m
      have h2 : LONG_MIN = -2147483648 := rfl
      omega
    · simp

lemma strtolHex_nonneg (s : List Char) (h : ('-' : Char) ∉ s) :
    0 ≤ (strtolHex s).1 := by
  have hd : ('-' : Char) ∉ s.drop ((s.takeWhile isSpaceC).length) :=
    fun hc => h (List.drop_subset _ _ hc)
  simp only [strtolHex]
  generalize hr1 : s.drop ((s.takeWhile isSpaceC).length) = r1 at hd
  have hsign : (match r1 with | '-' :: _ => (-1 : Int) | _ => 1) = 1 := by
    split
    · exact absurd (List.mem_cons_self _ _) hd
    · rfl
  rw [hsign]
  split
  · split
    · norm_num
    · exact clampLong_one_nonneg _
  · split
    · norm_num
    · exact clampLong_one_nonneg _
  · split
    · norm_num
    · exact clampLong_one_nonneg _

lemma substringA_length_le (l : List Char) (a b : Nat) (h : a ≤ b) :
    (substringA l a b).length ≤ b - a := by
  simp only [substringA]
  rw [if_neg (by omega : ¬ a > b), if_neg (by omega : ¬ a > b)]
  split
  · simp
  · simp only [List.length_take, List.length_drop]
    omega

lemma skipChar_ge (raw : List Char) (pos : Nat) (c : Char) :
    pos ≤ skipChar raw pos c := by
  unfold skipChar
  split
  · split <;> omega
  · omega

lemma skipChar_le (raw : List Char) (pos : Nat) (c : Char)
    (h : pos ≤ raw.length) : skipChar raw pos c ≤ raw.length := by
  unfold skipChar
  split
  · split <;> omega
  · omega

/-- Invariant of the chunk loop: when no minus sign occurs anywhere in
the buffer, every chunk size strtol reads is nonnegative, the position
advances monotonically past each copied chunk, and the accumulated
output never exceeds the current position, hence never the buffer
length — whether the loop exits or fuel runs out. -/
lemma chunkLoop_bound :
    ∀ (fuel : Nat) (raw : List Char) (pos : Nat) (acc : List Char),
      ('-' : Char) ∉ raw → acc.length ≤ pos → pos ≤ raw.length →
      (chunkLoop fuel raw pos acc).1.length ≤ raw.length := by
  intro fuel
  induction fuel with
  | zero =>
    intro raw pos acc hm ha hp
    simpa [chunkLoop] using le_trans ha hp
  | succ f ih =>
    intro raw pos acc hm ha hp
    simp only [chunkLoop]
    split
    · split
      · exact le_trans ha hp
      · rename_i lineEnd heq
        obtain ⟨hle1, hle2⟩ := indexOfFrom_some_bounds raw '\n' pos lineEnd heq
        split
        · exact le_trans ha hp
        · rename_i hc0
          split
          · rename_i hs
            have hcnn : 0 ≤ (strtolHex (trimWS (substringA raw pos lineEnd))).1 := by
              refine strtolHex_nonneg _ (fun hmem => hm ?_)
              exact substringA_subset (trimWS_subset hmem)
            set c := (strtolHex (trimWS (substringA raw pos lineEnd))).1 with hcdef
            obtain ⟨hs1, hs2⟩ := hs
            have hc1 : 1 ≤ c := by omega
            have hn : ((((lineEnd + 1 : Nat) : Int) + c).toNat : Int) =
                ((lineEnd + 1 : Nat) : Int) + c := Int.toNat_of_nonneg hs1
            set n := (((lineEnd + 1 : Nat) : Int) + c).toNat with hndef
            have hn2 : lineEnd + 1 ≤ n := by omega
            have hn3 : n ≤ raw.length := by omega
            have hseg : (substringA raw (lineEnd + 1) n).length ≤ n - (lineEnd + 1) :=
              substringA_length_le raw (lineEnd + 1) n hn2
            have hacc2 : (acc ++ substringA raw (lineEnd + 1) n).length ≤ n - 1 := by
              rw [List.length_append]
              omega
            have hp2 : skipChar raw (skipChar raw n '\r') '\n' ≤ raw.length :=
              skipChar_le _ _ _ (skipChar_le _ _ _ hn3)
            have hg2 : n ≤ skipChar raw (skipChar raw n '\r') '\n' :=
              le_trans (skipChar_ge _ _ _) (skipChar_ge _ _ _)
            exact ih raw _ _ hm (by omega) hp2
          · exact le_trans ha hp
    · exact le_trans ha hp

/-! ## Claim C2 — output bound of the Framing Decoder -/

/-- Claim C2 amended: the decoder has no capacity parameter and performs
no capacity-based early stop; the bound that does hold is relative to the
input: for every buffer containing no minus sign (so every chunk-size
line strtol reads is nonnegative), the output accumulated by the chunk
loop never exceeds the input's length, for every fuel — a truncated final
chunk merely ends the loop with the partial output.  The restriction is
necessary: a negative chunk-size line makes the loop re-copy an earlier
region of the buffer forever (see the counterexample). -/
theorem c2_output_bounded :
    ∀ (fuel : Nat) (raw : List Char), ('-' : Char) ∉ raw →
      (stripChunkedEncoding fuel raw).1.length ≤ raw.length := by
  intro fuel raw hm
  simp only [stripChunkedEncoding]
  split
  · simp
  · split
    · exact le_refl _
    · split
      · exact le_refl _
      · exact chunkLoop_bound fuel raw 0 [] hm (by simp) (by simp)

/-- Claim C2 witness: the bound applied to a well-formed chunked buffer;
its three-byte chunk decodes to three bytes, within the eight-byte
input. -/
theorem c2_output_bounded_witness :
    (('-' : Char) ∉ ("3\nabc\n0\n".toList)) ∧
    (stripChunkedEncoding 10 ("3\nabc\n0\n".toList)).1.length ≤
      ("3\nabc\n0\n".toList).length := by
  exact ⟨by decide, c2_output_bounded 10 ("3\nabc\n0\n".toList) (by decide)⟩

/-- The seven-byte buffer 1, newline, A, minus, 3, newline, newline.
Its first line parses as chunk size 1, the loop copies A and stops at
position 3; there the size line reads -3, the swap inside
String::substring turns the copy of positions 6 to 3 into a copy of
positions 3 to 6, and pos += chunkSize moves the cursor back to 3 —
the same state, forever. -/
def advInput : List Char := "1\nA-3\n\n".toList

set_option maxHeartbeats 2000000 in
/-- One iteration of the loop at the self-reproducing state: position 3
re-reads the -3 size line, appends the three bytes minus, 3, newline, and
returns to position 3. -/
lemma advInput_step (f : Nat) (acc : List Char) :
    chunkLoop (f + 1) advInput 3 acc =
      chunkLoop f advInput 3 (acc ++ ('-' :: '3' :: '\n' :: [])) := rfl

/-- The loop at position 3 of advInput never exits: each fuel step adds
exactly three bytes to the accumulator and the flag stays false (fuel
exhausted while running). -/
lemma advInput_loop (f : Nat) : ∀ acc : List Char,
    (chunkLoop f advInput 3 acc).2 = false ∧
    (chunkLoop f advInput 3 acc).1.length = acc.length + 3 * f := by
  induction f with
  | zero => intro acc; exact ⟨rfl, by simp [chunkLoop]⟩
  | succ g ih =>
    intro acc
    rw [advInput_step]
    obtain ⟨h1, h2⟩ := ih (acc ++ ('-' :: '3' :: '\n' :: []))
    refine ⟨h1, ?_⟩
    rw [h2, List.length_append]
    simp
    omega

set_option maxHeartbeats 2000000 in
/-- Entry into the loop on advInput: detection accepts the first line
(chunk size 1), and the first iteration copies the byte A and leaves the
cursor at position 3. -/
lemma advInput_start (k : Nat) :
    stripChunkedEncoding (k + 1) advInput = chunkLoop k advInput 3 ('A' :: []) := rfl

set_option maxHeartbeats 400000 in
/-- Claim C2 counterexample: there is no capacity bound at all.  On the
seven-byte input advInput the decoder is still running after 200 loop
iterations (flag false — the C loop never exits on this input) and has
already produced 598 bytes of output, more than both the seven-byte
input and the 512-byte response buffer of the price endpoint; the claim
that output is capped at capacity - 1 with an early stop on a full
buffer fails at every capacity. -/
theorem c2_unbounded_counterexample :
    (stripChunkedEncoding 200 advInput).2 = false ∧
    (stripChunkedEncoding 200 advInput).1.length = 598 ∧
    advInput.length = 7 := by
  have h0 : stripChunkedEncoding 200 advInput = chunkLoop 199 advInput 3 ('A' :: []) := by
    have h := advInput_start 199
    norm_num at h
    exact h
  obtain ⟨h1, h2⟩ := advInput_loop 199 ('A' :: [])
  refine ⟨?_, ?_, by decide⟩
  · rw [h0]; exact h1
  · rw [h0, h2]; norm_num

/-- Claim C3 witness: a plain price-like body whose first line 143.21
consumes the hex digits 143 and stops at a dot — not end-of-string,
carriage return or space — is returned verbatim. -/
theorem c3_verbatim_nonchunked_witness :
    ("143.21\nrest".toList ≠ []) ∧
    looksUnchunked ("143.21\nrest".toList) = true ∧
    stripChunkedEncoding 5 ("143.21\nrest".toList) = ("143.21\nrest".toList, true) := by
  refine ⟨by decide, by decide,
    c3_verbatim_nonchunked ("143.21\nrest".toList) 5 (by decide) (by decide)⟩
